import Mathlib

/-!
Formal model of the Intake execution/resilience runtime.

This file shallowly embeds the resilience-layer code of the repository:

* `src/market_research/resilience.py` — `CircuitBreaker` (closed/open/half-open gate)
* `src/graphs/switch6_graph.py` — the staged Switch-6 pipeline and its own
  `CircuitBreaker` variant
* `src/core/retry.py` — `RetryPolicy`, `_should_retry`, `retry_sync` / `retry_async`
* `src/core/errors.py` — the `AgentError` taxonomy and `coerce_agent_error`
* `src/core/hitl.py` — `HITLRequest.mark` and `InMemoryHITLQueue`
* `src/core/context.py` — `AgentContext.child`
* `src/utils/base_agent.py` — `BaseAgent.execute`
* `src/agents/orchestrator/agent.py` — sequential / parallel orchestration

Wall-clock times (`time.time()`, `datetime.now()`) are passed explicitly as
rational numbers.  Exceptions are values of an explicit `PyExc` type carrying
the exception class and attributes; raising is modelled with `Except` or, for
the breaker's `assert`, with `Option`.  Opaque dictionary payloads that the
control flow never inspects are abstracted to `String`.
-/

namespace Intake

/-! ## Circuit breaker (`src/market_research/resilience.py`) -/

/-- The breaker state strings `"closed"` / `"open"` / `"half_open"`. -/
inductive BState where
  | closed
  | opened
  | halfOpen
deriving DecidableEq, Repr

/-- `CircuitBreaker.__init__` state: `_failure_threshold`, `_recovery_timeout`,
`_failure_count`, `_state`, `_opened_at`. -/
structure CircuitBreaker where
  failureThreshold : Nat
  recoveryTimeout : ℚ
  failureCount : Nat
  state : BState
  openedAt : Option ℚ
deriving DecidableEq, Repr

/-- A freshly constructed breaker: count 0, closed, no `opened_at`. -/
def CircuitBreaker.fresh (F : Nat) (T : ℚ) : CircuitBreaker :=
  ⟨F, T, 0, .closed, none⟩

/-- `record_success`: reset count, force closed, clear `opened_at`. -/
def CircuitBreaker.recordSuccess (cb : CircuitBreaker) : CircuitBreaker :=
  { cb with failureCount := 0, state := .closed, openedAt := none }

/-- `record_failure`: increment count; open (stamping `opened_at` with the
current time) once the threshold is reached. -/
def CircuitBreaker.recordFailure (cb : CircuitBreaker) (now : ℚ) : CircuitBreaker :=
  let n := cb.failureCount + 1
  if cb.failureThreshold ≤ n then
    { cb with failureCount := n, state := .opened, openedAt := some now }
  else
    { cb with failureCount := n }

/-- `allow`: `True` when closed; otherwise `assert self._opened_at is not None`
(modelled by the `none` result), then promote to half-open and return `True`
once the recovery timeout has elapsed, else `False`.  Returns the decision and
the (possibly promoted) breaker. -/
def CircuitBreaker.allow (cb : CircuitBreaker) (now : ℚ) :
    Option (Bool × CircuitBreaker) :=
  if cb.state = .closed then
    some (true, cb)
  else
    match cb.openedAt with
    | none => none
    | some t0 =>
        if cb.recoveryTimeout ≤ now - t0 then
          some (true, { cb with state := .halfOpen })
        else
          some (false, cb)

/-- One externally visible operation on a breaker. -/
inductive BreakerOp where
  | recSuccess
  | recFailure (now : ℚ)
  | tryAllow (now : ℚ)
deriving DecidableEq, Repr

/-- Apply one operation; `none` means the `assert` in `allow` fired. -/
def CircuitBreaker.step (cb : CircuitBreaker) : BreakerOp → Option CircuitBreaker
  | .recSuccess => some cb.recordSuccess
  | .recFailure t => some (cb.recordFailure t)
  | .tryAllow t => (cb.allow t).map Prod.snd

/-- Run a sequence of operations from a given breaker. -/
def CircuitBreaker.runOps (cb : CircuitBreaker) : List BreakerOp → Option CircuitBreaker
  | [] => some cb
  | op :: rest => (cb.step op).bind (fun cb2 => cb2.runOps rest)

/-- The safety invariant backing the `assert` in `allow`: any non-closed
breaker has `opened_at` set. -/
def CircuitBreaker.inv (cb : CircuitBreaker) : Bool :=
  cb.state == .closed || cb.openedAt.isSome

/-- Apply `record_failure` `n` times, the `i`-th (1-based) at time `times i`. -/
def CircuitBreaker.failN (cb : CircuitBreaker) (times : Nat → ℚ) : Nat → CircuitBreaker
  | 0 => cb
  | n + 1 => (cb.failN times n).recordFailure (times (n + 1))

/-! ## Switch-6 circuit breaker (`src/graphs/switch6_graph.py`, `CircuitBreaker`) -/

/-- The dataclass breaker guarding each Switch-6 stage.  Differs from the
resilience-layer breaker: `can_execute` uses a strict `>` comparison and
always permits execution in half-open state, `record_failure` stamps
`last_failure_time` on every failure, and `record_success` does not clear it. -/
structure S6CircuitBreaker where
  failureThreshold : Nat := 3
  recoveryTimeout : ℚ := 300
  failureCount : Nat := 0
  lastFailureTime : Option ℚ := none
  state : BState := .closed
deriving DecidableEq, Repr

/-- `can_execute`: closed allows; open promotes to half-open and allows once
strictly more than `recovery_timeout` has elapsed since `last_failure_time or 0`
(the Python `or 0` coincides with `getD 0` because `0.0` is falsy); half-open
always allows. -/
def S6CircuitBreaker.canExecute (cb : S6CircuitBreaker) (now : ℚ) :
    Bool × S6CircuitBreaker :=
  match cb.state with
  | .closed => (true, cb)
  | .opened =>
      if cb.recoveryTimeout < now - (cb.lastFailureTime.getD 0) then
        (true, { cb with state := .halfOpen })
      else
        (false, cb)
  | .halfOpen => (true, cb)

/-- `record_success`: reset count and close. -/
def S6CircuitBreaker.recordSuccess (cb : S6CircuitBreaker) : S6CircuitBreaker :=
  { cb with failureCount := 0, state := .closed }

/-- `record_failure`: bump count, stamp the failure time, open at threshold. -/
def S6CircuitBreaker.recordFailure (cb : S6CircuitBreaker) (now : ℚ) : S6CircuitBreaker :=
  let n := cb.failureCount + 1
  let cb2 := { cb with failureCount := n, lastFailureTime := some now }
  if cb2.failureThreshold ≤ n then { cb2 with state := .opened } else cb2

/-! ## Switch-6 staged pipeline (`src/graphs/switch6_graph.py`) -/

/-- The six pipeline stages, in declared topological order. -/
inductive Stage where
  | segment
  | wound
  | reframe
  | offer
  | action
  | cash
deriving DecidableEq, Repr

def Stage.name : Stage → String
  | .segment => "segment"
  | .wound => "wound"
  | .reframe => "reframe"
  | .offer => "offer"
  | .action => "action"
  | .cash => "cash"

def Stage.all : List Stage :=
  [.segment, .wound, .reframe, .offer, .action, .cash]

/-- One structured entry of the state's `errors` list:
`{stage, error, timestamp}`. -/
structure S6Error where
  stage : Stage
  error : String
  timestamp : ℚ
deriving DecidableEq, Repr

/-- The `Switch6State` typed dict after `_initialize_state` has filled the
defaults.  `business_data` truthiness is a `Bool` (the nodes only test whether
the dict is non-empty); stage result payloads are abstracted to `String`;
`retry_count` is a total map defaulting to 0 (the code reads it with
`.get(stage, 0)`).  `framework_completion_score` is declared in the typed dict
but never written by any node. -/
structure S6State where
  businessData : Bool
  userType : String
  segmentResults : Option String := none
  woundResults : Option String := none
  reframeResults : Option String := none
  offerResults : Option String := none
  actionResults : Option String := none
  cashResults : Option String := none
  errors : List S6Error := []
  retryCount : Stage → Nat := fun _ => 0
  currentStage : Option Stage := none
  executionComplete : Bool := false
  frameworkCompletionScore : Option ℚ := none
  segmentValid : Bool := false
  woundValid : Bool := false
  reframeValid : Bool := false
  offerValid : Bool := false
  actionValid : Bool := false
  cashValid : Bool := false

/-- Read the `<stage>_valid` flag. -/
def S6State.valid (st : S6State) : Stage → Bool
  | .segment => st.segmentValid
  | .wound => st.woundValid
  | .reframe => st.reframeValid
  | .offer => st.offerValid
  | .action => st.actionValid
  | .cash => st.cashValid

/-- Write the `<stage>_valid` flag. -/
def S6State.setValid (st : S6State) : Stage → Bool → S6State
  | .segment, b => { st with segmentValid := b }
  | .wound, b => { st with woundValid := b }
  | .reframe, b => { st with reframeValid := b }
  | .offer, b => { st with offerValid := b }
  | .action, b => { st with actionValid := b }
  | .cash, b => { st with cashValid := b }

/-- Read the `<stage>_results` entry. -/
def S6State.results (st : S6State) : Stage → Option String
  | .segment => st.segmentResults
  | .wound => st.woundResults
  | .reframe => st.reframeResults
  | .offer => st.offerResults
  | .action => st.actionResults
  | .cash => st.cashResults

/-- Write the `<stage>_results` entry. -/
def S6State.setResults (st : S6State) : Stage → String → S6State
  | .segment, r => { st with segmentResults := some r }
  | .wound, r => { st with woundResults := some r }
  | .reframe, r => { st with reframeResults := some r }
  | .offer, r => { st with offerResults := some r }
  | .action, r => { st with actionResults := some r }
  | .cash, r => { st with cashResults := some r }

/-- Update the per-stage retry counter map. -/
def S6State.setRetryCount (st : S6State) (s : Stage) (n : Nat) : S6State :=
  { st with retryCount := fun k => if k = s then n else st.retryCount k }

/-- `_add_error`: append a structured `{stage, error, timestamp}` entry. -/
def S6State.addError (st : S6State) (s : Stage) (msg : String) (now : ℚ) : S6State :=
  { st with errors := st.errors ++ [⟨s, msg, now⟩] }

/-- `_can_skip_stage`: a stage self-skips when its declared predecessor did
not end valid; `segment` never skips. -/
def canSkipStage (st : S6State) : Stage → Bool
  | .segment => false
  | .wound => !st.segmentValid
  | .reframe => !st.woundValid
  | .offer => !st.reframeValid
  | .action => !st.offerValid
  | .cash => !st.actionValid

/-- Per-node retry bound: `max_retries = 2` inside every stage node. -/
def s6MaxRetries : Nat := 2

/-- The shared exception branch of every stage node: `record_failure`, bump
the per-stage retry counter, and either hand the state back for a retry
(counter ≤ 2, nothing else recorded) or record the structured error and mark
the stage invalid.  Only the `segment` and `cash` nodes additionally set
`execution_complete` on exhaustion. -/
def stageFailure (stage : Stage) (cb : S6CircuitBreaker) (st : S6State)
    (msg : String) (now : ℚ) : S6CircuitBreaker × S6State :=
  let cb2 := cb.recordFailure now
  let rc := st.retryCount stage + 1
  if rc ≤ s6MaxRetries then
    (cb2, { (st.setRetryCount stage rc) with currentStage := some stage })
  else
    let st2 := (st.addError stage msg now).setValid stage false
    (cb2, { st2 with
            currentStage := some stage,
            executionComplete :=
              if stage = .segment ∨ stage = .cash then true
              else st2.executionComplete })

/-- One stage node (`segment_node`, `wound_node`, ...).  `eng stage` is the
outcome of the corresponding `Switch6FrameworkEngine` call (`.error msg`
models the call raising).  Returns the updated breaker, the updated state,
and whether the engine work was actually attempted (false when the breaker
refused, the stage self-skipped, or the empty-`business_data` `ValueError`
fired before the engine call). -/
def stageNode (eng : Stage → Except String String) (now : ℚ) (stage : Stage)
    (cb : S6CircuitBreaker) (st : S6State) :
    S6CircuitBreaker × S6State × Bool :=
  match cb.canExecute now with
  | (false, cb2) =>
      (cb2, st.addError stage ("Circuit breaker open for " ++ stage.name) now, false)
  | (true, cb2) =>
      if canSkipStage st stage then
        (cb2, { st with currentStage := some stage }, false)
      else if !st.businessData then
        let (cb3, st3) := stageFailure stage cb2 st
          ("No business data provided for " ++ stage.name ++ " stage") now
        (cb3, st3, false)
      else
        match eng stage with
        | .ok r =>
            let st2 := (st.setResults stage r).setValid stage true
            let st3 := { (st2.setRetryCount stage 0) with
                         currentStage := some stage,
                         executionComplete :=
                           if stage = .cash then true else st2.executionComplete }
            (cb2.recordSuccess, st3, true)
        | .error msg =>
            let (cb3, st3) := stageFailure stage cb2 st msg now
            (cb3, st3, true)

/-- A whole-run value: the threaded state, the per-stage breakers
(`Switch6Dependencies.circuit_breakers`), and per-stage engine-attempt flags
(proof instrumentation, not part of the Python state). -/
structure S6Run where
  state : S6State
  breakers : Stage → S6CircuitBreaker
  attempted : Stage → Bool

/-- Execute the listed stage nodes in order, threading state and breakers. -/
def runStages (eng : Stage → Except String String) (now : ℚ) :
    List Stage → S6Run → S6Run
  | [], r => r
  | s :: rest, r =>
      let (cb, st, att) := stageNode eng now s (r.breakers s) r.state
      runStages eng now rest
        ⟨st,
         fun k => if k = s then cb else r.breakers k,
         fun k => if k = s then att else r.attempted k⟩

/-- The `final_results` dict assembled by `run_switch6_workflow` (the fields
the claims are about), plus the engine-attempt instrumentation. -/
structure S6Final where
  stages : Stage → Option String
  frameworkCompletionScore : Option ℚ
  errors : List S6Error
  executionComplete : Bool
  attempted : Stage → Bool

/-- `run_switch6_workflow`: run the compiled linear graph
segment → wound → reframe → offer → action → cash from the initial state
`{business_data, user_type}` and package the final results.  The graph nodes
never raise, so the `except` fallback of the Python wrapper is dead code on
this path.  `framework_completion_score` is read with `result.get` but no node
ever writes it. -/
def runSwitch6Workflow (eng : Stage → Except String String) (now : ℚ)
    (businessData : Bool) (userType : String)
    (breakers : Stage → S6CircuitBreaker) : S6Final :=
  let r := runStages eng now Stage.all
    ⟨{ businessData := businessData, userType := userType },
     breakers, fun _ => false⟩
  { stages := fun s => r.state.results s
  , frameworkCompletionScore := r.state.frameworkCompletionScore
  , errors := r.state.errors
  , executionComplete := r.state.executionComplete
  , attempted := r.attempted }

/-- `_default_dependencies()`: one default breaker per stage. -/
def defaultBreakers : Stage → S6CircuitBreaker := fun _ => {}

/-! ## Error taxonomy (`src/core/errors.py`) -/

/-- Python exception classes the runtime distinguishes: the `AgentError`
taxonomy, the built-ins it raises (`RuntimeError`, `KeyError`), the root
`Exception`, and arbitrary further classes `other n`. -/
inductive ExcClass where
  | exception
  | runtimeError
  | keyError
  | agentError
  | configurationError
  | validationError
  | authenticationError
  | authorizationError
  | rateLimitError
  | externalServiceError
  | humanInputRequiredError
  | retryableAgentError
  | other (n : Nat)
deriving DecidableEq, Repr

/-- Whether a class belongs to the `AgentError` taxonomy (is `AgentError` or
one of its direct subclasses in `errors.py`). -/
def ExcClass.isAgentKind : ExcClass → Bool
  | .agentError | .configurationError | .validationError | .authenticationError
  | .authorizationError | .rateLimitError | .externalServiceError
  | .humanInputRequiredError | .retryableAgentError => true
  | _ => false

/-- `isinstance` on classes: a class is an instance-match of itself, of
`Exception`, and — for taxonomy classes — of `AgentError`. -/
def ExcClass.isSubclassOf (c d : ExcClass) : Bool :=
  c = d || d = .exception || (c.isAgentKind && d = .agentError)

/-- An exception value: its class, `str(e)` (the message), and the
`retryable` attribute (`getattr(e, "retryable", False)`; the taxonomy
constructors set it, `False` models its absence elsewhere). -/
structure PyExc where
  cls : ExcClass
  message : String
  retryable : Bool := false
deriving DecidableEq, Repr

/-- `isinstance(e, tuple_of_classes)`. -/
def PyExc.isinstanceAny (e : PyExc) (cs : List ExcClass) : Bool :=
  cs.any (fun c => e.cls.isSubclassOf c)

/-- `coerce_agent_error`: `AgentError` instances pass through unchanged; any
other exception becomes a bare `AgentError(message=str(error))`, whose
dataclass defaults make it non-retryable. -/
def coerceAgentError (e : PyExc) : PyExc :=
  if e.cls.isSubclassOf .agentError then e
  else { cls := .agentError, message := e.message, retryable := false }

/-! ## Retry (`src/core/retry.py`) -/

/-- `RetryPolicy` with its dataclass defaults.  Delay magnitudes are rationals;
`jitter` is the sampling interval of `random.uniform`. -/
structure RetryPolicy where
  attempts : Nat := 3
  baseDelay : ℚ := 1 / 2
  backoffFactor : ℚ := 2
  maxDelay : ℚ := 30
  jitter : ℚ × ℚ := (0, 0)
  retryExceptions : List ExcClass := [.retryableAgentError]
  nonRetryableExceptions : List ExcClass := [.validationError]

/-- `_should_retry`: the deny-list is consulted first; with an empty
allow-list retryability falls back to the error's own `retryable` attribute
(for `AgentError`s); otherwise membership in the allow-list decides. -/
def shouldRetry (e : PyExc) (p : RetryPolicy) : Bool :=
  if e.isinstanceAny p.nonRetryableExceptions then false
  else if p.retryExceptions.isEmpty then
    e.cls.isSubclassOf .agentError && e.retryable
  else
    e.isinstanceAny p.retryExceptions

/-- `_compute_delay`: exponential backoff capped at `max_delay`, plus a jitter
sample when a jitter interval is configured. -/
def computeDelay (attempt : Nat) (p : RetryPolicy) (jitterSample : ℚ) : ℚ :=
  let d := min (p.baseDelay * p.backoffFactor ^ (attempt - 1)) p.maxDelay
  if p.jitter ≠ ((0 : ℚ), (0 : ℚ)) then d + jitterSample else d

/-- Result of a retried run: the final outcome, how many times the operation
was invoked, and how many backoff sleeps were performed. -/
structure RetryResult (α : Type) where
  outcome : Except PyExc α
  calls : Nat
  sleeps : Nat

/-- The shared loop body of `retry_sync` and `retry_async` (the two Python
functions are line-for-line identical apart from `time.sleep` versus
`await asyncio.sleep`).  `op n` is the outcome of the `n`-th (1-based)
invocation.  `fuel` is the number of loop iterations left
(`attempts - attempt + 1`); exhausting it without ever invoking the operation
models falling out of the loop with `last_error` unset and raising the
final `RuntimeError`. -/
def retryLoop (p : RetryPolicy) (op : Nat → Except PyExc α) :
    Nat → Nat → Nat → Nat → RetryResult α
  | 0, _, calls, sleeps =>
      ⟨.error ⟨.runtimeError, "retry exited without executing the function", false⟩,
       calls, sleeps⟩
  | fuel + 1, attempt, calls, sleeps =>
      match op attempt with
      | .ok a => ⟨.ok a, calls + 1, sleeps⟩
      | .error e =>
          if attempt == p.attempts || !shouldRetry e p then
            ⟨.error e, calls + 1, sleeps⟩
          else
            retryLoop p op fuel (attempt + 1) (calls + 1) (sleeps + 1)

/-- `retry_sync(func, policy)`. -/
def retrySync (p : RetryPolicy) (op : Nat → Except PyExc α) : RetryResult α :=
  retryLoop p op p.attempts 1 0 0

/-- `retry_async(func, policy)`: same algorithm, cooperative sleeps. -/
def retryAsync (p : RetryPolicy) (op : Nat → Except PyExc α) : RetryResult α :=
  retryLoop p op p.attempts 1 0 0

/-! ## HITL queue (`src/core/hitl.py`) -/

/-- The status strings. -/
def HITL_PENDING : String := "pending"

/-- `HITLRequest` dataclass; the payload dict is abstracted to `String`,
resolutions to `Option String`. -/
structure HITLRequest where
  requestId : String
  taskName : String
  payload : String
  createdAt : ℚ
  resolvedAt : Option ℚ := none
  status : String := HITL_PENDING
  resolution : Option String := none
deriving DecidableEq, Repr

/-- `HITLRequest.mark`: set status and resolution, stamp `resolved_at`. -/
def HITLRequest.mark (r : HITLRequest) (status : String)
    (resolution : Option String) (now : ℚ) : HITLRequest :=
  { r with status := status, resolution := resolution, resolvedAt := some now }

/-- The `_requests` dict of an `InMemoryHITLQueue`, modelled as the map it
denotes.  Mutations inside the queue's lock become functional updates; the
claims here are single-caller, so lock interleavings do not arise. -/
abbrev HITLStore : Type := String → Option HITLRequest

/-- The empty queue. -/
def HITLStore.empty : HITLStore := fun _ => none

/-- `submit`: store (or silently overwrite) by `request_id`. -/
def HITLStore.submit (q : HITLStore) (r : HITLRequest) : HITLStore :=
  fun k => if k = r.requestId then some r else q k

/-- The `KeyError` raised by `resolve` on an unknown id (the source message
additionally quotes the id). -/
def hitlNotFound (id : String) : PyExc :=
  ⟨.keyError, "Unknown HITL request " ++ id, false⟩

/-- `resolve(request_id, status, resolution)`: look the request up; raise
`KeyError` when absent (the store untouched), otherwise `mark` it in place. -/
def HITLStore.resolve (q : HITLStore) (id status : String)
    (resolution : Option String) (now : ℚ) : HITLStore × Except PyExc Unit :=
  match q id with
  | none => (q, .error (hitlNotFound id))
  | some item =>
      (fun k => if k = id then some (item.mark status resolution now) else q k,
       .ok ())

/-- `get(request_id)`: a plain dict lookup; total, never raises. -/
def HITLStore.get (q : HITLStore) (id : String) : Option HITLRequest := q id

/-! ## Execution context (`src/core/context.py`) -/

/-- Python truthiness of an `Optional[str]`: `None` and `""` are falsy. -/
def pyTruthy : Option String → Bool
  | none => false
  | some s => s ≠ ""

/-- `a or b` on `Optional[str]` values. -/
def pyOr (a b : Option String) : Option String :=
  if pyTruthy a then a else b

/-- `AgentContext`; the metadata dict is abstracted to `String`. -/
structure AgentContext where
  requestId : String
  sessionId : Option String := none
  userId : Option String := none
  parentSpanId : Option String := none
  spanId : Option String := none
  workflowId : Option String := none
  runId : Option String := none
  metadata : String := ""
  createdAt : ℚ := 0
deriving DecidableEq, Repr

/-- A `**overrides` keyword map for `child` that does not set `request_id` or
`parent_span_id`: `some v` means the key is present with value `v`. -/
structure CtxOverrides where
  sessionId : Option (Option String) := none
  userId : Option (Option String) := none
  spanId : Option (Option String) := none
  workflowId : Option (Option String) := none
  runId : Option (Option String) := none
  metadata : Option String := none

/-- `AgentContext.child(**overrides)`: build the payload dict (inheriting the
request/session/user ids, deriving `parent_span_id` from
`self.span_id or self.parent_span_id`, and notably *not* carrying over
`span_id`, which therefore defaults to `None` unless overridden), apply the
overrides, and construct a fresh context.  The receiver is returned untouched;
`now` models the `created_at` default factory. -/
def AgentContext.child (c : AgentContext) (o : CtxOverrides) (now : ℚ) :
    AgentContext :=
  { requestId := c.requestId
  , sessionId := o.sessionId.getD c.sessionId
  , userId := o.userId.getD c.userId
  , parentSpanId := pyOr c.spanId c.parentSpanId
  , spanId := o.spanId.getD none
  , workflowId := o.workflowId.getD c.workflowId
  , runId := o.runId.getD c.runId
  , metadata := o.metadata.getD c.metadata
  , createdAt := now }

/-! ## Agent runtime (`src/utils/base_agent.py`) -/

/-- The fields of a normalized `AgentInput` that `execute` reads; the
`input_data` and `metadata` dicts are abstracted to `String`. -/
structure AgentInputM where
  requestId : String
  inputData : String
  metadata : String
deriving DecidableEq, Repr

/-- The `HITLRequest` that `_enqueue_hitl` constructs from the input and the
intercepted error (its payload dict rendered to a string). -/
def hitlRequestOf (agentName : String) (inp : AgentInputM) (e : PyExc) (now : ℚ) :
    HITLRequest :=
  { requestId := inp.requestId
  , taskName := agentName
  , payload := "input=" ++ inp.inputData ++ ";metadata=" ++ inp.metadata
      ++ ";error=" ++ e.message
  , createdAt := now }

/-- `_enqueue_hitl`: a missing queue is tolerated (early return); otherwise
submit the constructed request. -/
def enqueueHitl (queue : Option HITLStore) (agentName : String)
    (inp : AgentInputM) (e : PyExc) (now : ℚ) : Option HITLStore :=
  match queue with
  | none => none
  | some q => some (q.submit (hitlRequestOf agentName inp e now))

/-- `BaseAgent.execute`: run the business logic through `retry_async`; on
`HumanInputRequiredError` best-effort-enqueue a HITL request and re-raise the
same error object; on any other exception re-raise it coerced through
`coerce_agent_error`.  Telemetry emission has no effect on the returned data
and is not modelled.  Returns the (possibly extended) queue and the outcome. -/
def executeAgent (agentName : String) (inp : AgentInputM)
    (queue : Option HITLStore) (p : RetryPolicy)
    (op : Nat → Except PyExc α) (now : ℚ) :
    Option HITLStore × Except PyExc α :=
  match (retryAsync p op).outcome with
  | .ok a => (queue, .ok a)
  | .error e =>
      if e.cls.isSubclassOf .humanInputRequiredError then
        (enqueueHitl queue agentName inp e now, .error e)
      else
        (queue, .error (coerceAgentError e))

/-! ## Orchestrator (`src/agents/orchestrator/agent.py`) -/

/-- One `{agent, params}` workflow step; the params mapping is abstracted. -/
structure WorkStep where
  agent : String
  params : String
deriving DecidableEq, Repr

/-- One entry of the returned result list: `{"agent": ..., "output": ...}`
or `{"agent": ..., "error": str(exc)}`. -/
inductive StepEntry where
  | ok (agent : String) (output : String)
  | err (agent : String) (msg : String)
deriving DecidableEq, Repr

/-- The truthiness test `outcome.get("error")` driving the fail-fast break:
success entries have no error key, and an error entry is truthy exactly when
its message string is non-empty. -/
def StepEntry.hasError : StepEntry → Bool
  | .ok _ _ => false
  | .err _ m => m ≠ ""

/-- `_invoke_agent`: an unregistered label becomes a structured
`{agent, error}` entry (the source message quotes the label); otherwise the
child's `execute` outcome (`childExec label params position`) is wrapped into
an output entry, any exception into an `{agent, error: str(exc)}` entry.
Total: the orchestrator never raises for a child failure. -/
def invokeAgent (registered : String → Bool)
    (childExec : String → String → Nat → Except String String)
    (label : String) (params : String) (position : Nat) : StepEntry :=
  if registered label then
    match childExec label params position with
    | .ok out => .ok label out
    | .error msg => .err label msg
  else
    .err label ("Agent " ++ label ++ " is not registered")

/-- `_run_sequential` from position `i`: invoke each step in order, append
its entry, and break as soon as an entry's error marker is truthy. -/
def runSequential (registered : String → Bool)
    (childExec : String → String → Nat → Except String String) :
    List WorkStep → Nat → List StepEntry
  | [], _ => []
  | s :: rest, i =>
      let e := invokeAgent registered childExec s.agent s.params i
      if e.hasError then [e]
      else e :: runSequential registered childExec rest (i + 1)

/-- `_run_parallel` from position `i`: build one coroutine per step and
`asyncio.gather` them, which awaits every one and returns the entries in
input order. -/
def runParallelFrom (registered : String → Bool)
    (childExec : String → String → Nat → Except String String) :
    List WorkStep → Nat → List StepEntry
  | [], _ => []
  | s :: rest, i =>
      invokeAgent registered childExec s.agent s.params i
        :: runParallelFrom registered childExec rest (i + 1)

/-- `_run_parallel` on a full step list. -/
def runParallel (registered : String → Bool)
    (childExec : String → String → Nat → Except String String)
    (steps : List WorkStep) : List StepEntry :=
  runParallelFrom registered childExec steps 0

/-! ## Breaker reachability lemmas -/

/-- Any single operation on an invariant-satisfying breaker succeeds (the
`assert` cannot fire) and preserves the invariant. -/
lemma CircuitBreaker.inv_step (cb : CircuitBreaker) (op : BreakerOp)
    (h : cb.inv = true) : ∃ cb2, cb.step op = some cb2 ∧ cb2.inv = true := by
  cases op with
  | recSuccess =>
      refine ⟨cb.recordSuccess, rfl, ?_⟩
      simp [CircuitBreaker.recordSuccess, CircuitBreaker.inv]
  | recFailure t =>
      refine ⟨cb.recordFailure t, rfl, ?_⟩
      unfold CircuitBreaker.recordFailure
      by_cases hth : cb.failureThreshold ≤ cb.failureCount + 1
      · simp [hth, CircuitBreaker.inv]
      · simpa [hth, CircuitBreaker.inv] using h
  | tryAllow t =>
      unfold CircuitBreaker.step CircuitBreaker.allow
      by_cases hcl : cb.state = .closed
      · exact ⟨cb, by simp [hcl], h⟩
      · have hop : cb.openedAt.isSome := by
          simpa [CircuitBreaker.inv, hcl] using h
        obtain ⟨t0, ht0⟩ := Option.isSome_iff_exists.mp hop
        by_cases helapsed : cb.recoveryTimeout ≤ t - t0
        · refine ⟨{ cb with state := .halfOpen }, ?_, ?_⟩
          · simp [hcl, ht0, helapsed]
          · simp [CircuitBreaker.inv, ht0]
        · refine ⟨cb, ?_, h⟩
          simp [hcl, ht0, helapsed]

/-- Any operation sequence from an invariant-satisfying breaker runs to
completion and lands on an invariant-satisfying breaker. -/
lemma CircuitBreaker.inv_runOps (cb : CircuitBreaker) (ops : List BreakerOp)
    (h : cb.inv = true) : ∃ cb2, cb.runOps ops = some cb2 ∧ cb2.inv = true := by
  induction ops generalizing cb with
  | nil => exact ⟨cb, rfl, h⟩
  | cons op rest ih =>
      obtain ⟨cb1, hstep, hinv1⟩ := cb.inv_step op h
      obtain ⟨cb2, hrun, hinv2⟩ := ih cb1 hinv1
      exact ⟨cb2, by simp [CircuitBreaker.runOps, hstep, hrun], hinv2⟩

/-- C10: in every `CircuitBreaker` state reachable from a freshly constructed
breaker by any sequence of `record_success`, `record_failure` and `allow`
calls, a non-closed state has `opened_at` set (the `inv` predicate), so the
assertion inside `allow()` never fails: the whole operation sequence runs to
completion (`isSome`) and the resulting state satisfies the invariant. -/
theorem breaker_allow_assert_never_fails (F : Nat) (T : ℚ) (ops : List BreakerOp) :
    ((CircuitBreaker.fresh F T).runOps ops).isSome = true ∧
    CircuitBreaker.inv
      (((CircuitBreaker.fresh F T).runOps ops).getD (CircuitBreaker.fresh F T)) = true := by
  have hfresh : (CircuitBreaker.fresh F T).inv = true := by
    simp [CircuitBreaker.fresh, CircuitBreaker.inv]
  obtain ⟨cb2, hrun, hinv⟩ := (CircuitBreaker.fresh F T).inv_runOps ops hfresh
  rw [hrun]
  exact ⟨rfl, hinv⟩

/-- Fewer than `failure_threshold` consecutive failures leave a fresh breaker
closed, with no `opened_at`. -/
lemma CircuitBreaker.failN_closed (F : Nat) (T : ℚ) (times : Nat → ℚ) :
    ∀ n, n < F → (CircuitBreaker.fresh F T).failN times n =
      ⟨F, T, n, .closed, none⟩ := by
  intro n
  induction n with
  | zero => intro _; rfl
  | succ k ih =>
      intro hlt
      have hk : k < F := Nat.lt_of_succ_lt hlt
      have hnotop : ¬ F ≤ k + 1 := Nat.not_le_of_lt hlt
      simp only [CircuitBreaker.failN]
      rw [ih hk]
      simp [CircuitBreaker.recordFailure, hnotop]

/-- Exactly `failure_threshold` consecutive failures open a fresh breaker,
stamping `opened_at` with the time of the final failure. -/
lemma CircuitBreaker.failN_opens (F : Nat) (T : ℚ) (times : Nat → ℚ)
    (hF : 1 ≤ F) : (CircuitBreaker.fresh F T).failN times F =
      ⟨F, T, F, .opened, some (times F)⟩ := by
  obtain ⟨k, rfl⟩ : ∃ k, F = k + 1 := ⟨F - 1, by omega⟩
  have hk : k < k + 1 := Nat.lt_succ_self k
  simp only [CircuitBreaker.failN]
  rw [CircuitBreaker.failN_closed (k + 1) T times k hk]
  simp [CircuitBreaker.recordFailure]

/-- C1 (amended): for a fresh breaker with threshold `F ≥ 1` and timeout `T`,
after `F` consecutive `record_failure` calls `allow()` returns `False` until
`T` has elapsed since `opened_at` (the time of the `F`-th failure); once `T`
has elapsed `allow()` promotes to half-open and returns `True`, and — the
amendment — it keeps returning `True` in the half-open state until a result
is recorded (the code does not limit half-open to a single trial call); a
success recorded there closes the breaker and resets the failure count to 0;
a failure recorded there reopens it and restamps `opened_at`. -/
theorem breaker_recovery_cycle (F : Nat) (T : ℚ) (times : Nat → ℚ)
    (hF : 1 ≤ F) :
    let cbF : CircuitBreaker := ⟨F, T, F, .opened, some (times F)⟩
    let cbH : CircuitBreaker := ⟨F, T, F, .halfOpen, some (times F)⟩
    (CircuitBreaker.fresh F T).failN times F = cbF ∧
    (∀ t, t - times F < T → cbF.allow t = some (false, cbF)) ∧
    (∀ t, T ≤ t - times F → cbF.allow t = some (true, cbH)) ∧
    (∀ t, T ≤ t - times F → cbH.allow t = some (true, cbH)) ∧
    cbH.recordSuccess = ⟨F, T, 0, .closed, none⟩ ∧
    (∀ t2, cbH.recordFailure t2 = ⟨F, T, F + 1, .opened, some t2⟩) := by
  refine ⟨CircuitBreaker.failN_opens F T times hF, ?_, ?_, ?_, rfl, ?_⟩
  · intro t ht
    simp [CircuitBreaker.allow, not_le.mpr ht]
  · intro t ht
    simp [CircuitBreaker.allow, ht]
  · intro t ht
    simp [CircuitBreaker.allow, ht]
  · intro t2
    simp [CircuitBreaker.recordFailure]

/-- Witness for C1 at `F = 1`, `T = 10`, all failures at time 0: allow is
refused at time 5, permitted at time 10, and the recovery transitions are as
stated. -/
theorem breaker_recovery_cycle_witness :
    (CircuitBreaker.fresh 1 10).failN (fun _ => 0) 1 =
      ⟨1, 10, 1, .opened, some 0⟩ ∧
    CircuitBreaker.allow ⟨1, 10, 1, .opened, some 0⟩ 5 =
      some (false, ⟨1, 10, 1, .opened, some 0⟩) ∧
    CircuitBreaker.allow ⟨1, 10, 1, .opened, some 0⟩ 10 =
      some (true, ⟨1, 10, 1, .halfOpen, some 0⟩) ∧
    CircuitBreaker.recordSuccess ⟨1, 10, 1, .halfOpen, some 0⟩ =
      ⟨1, 10, 0, .closed, none⟩ ∧
    CircuitBreaker.recordFailure ⟨1, 10, 1, .halfOpen, some 0⟩ 42 =
      ⟨1, 10, 2, .opened, some 42⟩ := by
  have h := breaker_recovery_cycle 1 10 (fun _ => 0) (by decide)
  exact ⟨h.1, h.2.1 5 (by norm_num), h.2.2.1 10 (by norm_num),
    h.2.2.2.2.1, h.2.2.2.2.2 42⟩

/-- Counterexample for C1 as stated: after one failure (threshold 1,
timeout 10) and one elapsed-timeout `allow()` that promotes the breaker to
half-open, a second `allow()` call with no intervening `record_success` /
`record_failure` is again permitted and the state stays half-open — so more
than one call is permitted in the half-open state, refuting "exactly one call
is permitted in the half-open state". -/
theorem breaker_halfOpen_second_call_permitted :
    ((CircuitBreaker.fresh 1 10).recordFailure 0).allow 10 =
      some (true, ⟨1, 10, 1, .halfOpen, some 0⟩) ∧
    CircuitBreaker.allow ⟨1, 10, 1, .halfOpen, some 0⟩ 10 =
      some (true, ⟨1, 10, 1, .halfOpen, some 0⟩) := by
  constructor
  · have h10 : (10 : ℚ) ≤ 10 - 0 := by norm_num
    simp [CircuitBreaker.fresh, CircuitBreaker.recordFailure,
      CircuitBreaker.allow, h10]
  · have h10 : (10 : ℚ) ≤ 10 - 0 := by norm_num
    simp [CircuitBreaker.allow, h10]

/-- C9: for every `AgentContext` and every override map that sets neither
`request_id` nor `parent_span_id` (the `CtxOverrides` type has no such keys),
the derived child keeps the parent's `request_id`, and its `parent_span_id`
is the parent's `span_id` when that is set (truthy: present and non-empty,
matching the `or` in the source) and the parent's own `parent_span_id`
otherwise.  The parent context itself is a pure value here, mirroring that
`child` only reads `self`. -/
theorem context_child_span_inheritance (c : AgentContext) (o : CtxOverrides)
    (now : ℚ) :
    (c.child o now).requestId = c.requestId ∧
    (c.child o now).parentSpanId =
      (if pyTruthy c.spanId then c.spanId else c.parentSpanId) := by
  exact ⟨rfl, rfl⟩

/-- C8: `resolve` on an id not present in the queue fails with the `KeyError`
(NotFound) and returns the stored requests untouched, and `get` on that id
returns `none` (and, being a total function into `Option`, cannot throw);
`resolve` on a present id succeeds and stores the request with the given
status and resolution and a non-`none` `resolved_at`, leaving every other id
untouched. -/
theorem hitl_resolve_get_spec (q : HITLStore) (id status : String)
    (res : Option String) (now : ℚ) :
    (q id = none →
      q.resolve id status res now = (q, .error (hitlNotFound id)) ∧
      q.get id = none) ∧
    (∀ item, q id = some item →
      (q.resolve id status res now).2 = .ok () ∧
      (q.resolve id status res now).1 id = some (item.mark status res now) ∧
      (item.mark status res now).status = status ∧
      (item.mark status res now).resolution = res ∧
      (item.mark status res now).resolvedAt = some now ∧
      ∀ k, k ≠ id → (q.resolve id status res now).1 k = q k) := by
  constructor
  · intro h
    exact ⟨by simp [HITLStore.resolve, h], h⟩
  · intro item h
    refine ⟨by simp [HITLStore.resolve, h], by simp [HITLStore.resolve, h],
      rfl, rfl, rfl, ?_⟩
    intro k hk
    simp [HITLStore.resolve, h, hk]

/-- Witness for C8 on a one-element queue: resolving the stored id `"r1"`
succeeds and marks it approved with `resolved_at = 7`; resolving the unknown
id `"zz"` raises the NotFound `KeyError` and `get "zz"` is empty. -/
theorem hitl_resolve_get_spec_witness :
    (HITLStore.resolve
        (HITLStore.submit HITLStore.empty ⟨"r1", "review", "p", 1, none, HITL_PENDING, none⟩)
        "r1" "approved" (some "ok") 7).2 = .ok () ∧
    (HITLRequest.mark ⟨"r1", "review", "p", 1, none, HITL_PENDING, none⟩
        "approved" (some "ok") 7).resolvedAt = some 7 ∧
    (HITLStore.resolve
        (HITLStore.submit HITLStore.empty ⟨"r1", "review", "p", 1, none, HITL_PENDING, none⟩)
        "zz" "approved" none 7).2 = .error (hitlNotFound "zz") ∧
    HITLStore.get
        (HITLStore.submit HITLStore.empty ⟨"r1", "review", "p", 1, none, HITL_PENDING, none⟩)
        "zz" = none := by
  have hq := hitl_resolve_get_spec
    (HITLStore.submit HITLStore.empty ⟨"r1", "review", "p", 1, none, HITL_PENDING, none⟩)
    "r1" "approved" (some "ok") 7
  have hz := hitl_resolve_get_spec
    (HITLStore.submit HITLStore.empty ⟨"r1", "review", "p", 1, none, HITL_PENDING, none⟩)
    "zz" "approved" none 7
  have hknown := hq.2 ⟨"r1", "review", "p", 1, none, HITL_PENDING, none⟩ rfl
  have hunknown := hz.1 rfl
  exact ⟨hknown.1, hknown.2.2.2.2.1, by rw [hunknown.1], hunknown.2⟩

/-- When every remaining attempt fails with a retryable error, the loop
performs every remaining invocation, sleeps between consecutive ones, and
finally re-raises the error of the last attempt unchanged. -/
lemma retryLoop_all_fail {α : Type} (p : RetryPolicy) (op : Nat → Except PyExc α)
    (eN : PyExc) :
    ∀ fuel attempt calls sleeps,
      attempt + fuel = p.attempts + 1 →
      1 ≤ fuel →
      (∀ n, attempt ≤ n → n ≤ p.attempts →
        ∃ e, op n = .error e ∧ shouldRetry e p = true) →
      op p.attempts = .error eN →
      retryLoop p op fuel attempt calls sleeps =
        ⟨.error eN, calls + fuel, sleeps + (fuel - 1)⟩ := by
  intro fuel
  induction fuel with
  | zero => intro attempt calls sleeps _ h1; omega
  | succ f ih =>
      intro attempt calls sleeps harith _ hfail hlast
      by_cases hf : f = 0
      · subst hf
        have hatt : attempt = p.attempts := by omega
        subst hatt
        simp [retryLoop, hlast]
      · have hlt : attempt < p.attempts := by omega
        obtain ⟨e, hop, hret⟩ :=
          hfail attempt (Nat.le_refl attempt) (Nat.le_of_lt hlt)
        have hne : (attempt == p.attempts) = false := by
          simp [Nat.ne_of_lt hlt]
        have hrec := ih (attempt + 1) (calls + 1) (sleeps + 1)
          (by omega) (by omega)
          (fun n h1 h2 => hfail n (by omega) h2) hlast
        have h1 : calls + 1 + f = calls + (f + 1) := by omega
        have h2 : sleeps + 1 + (f - 1) = sleeps + (f + 1 - 1) := by omega
        simp only [retryLoop, hop, hne, hret, Bool.not_true, Bool.or_false]
        rw [hrec, h1, h2]
        simp

/-- C2: a policy with `attempts = N ≥ 1` run over an operation every one of
whose invocations raises an error the policy classifies retryable makes the
operation run exactly `N` times (with `N - 1` backoff sleeps) and ultimately
re-raises, unwrapped, the error of the `N`-th invocation — identically for
`retry_sync` and `retry_async`. -/
theorem retry_retryable_exhausts_attempts {α : Type} (p : RetryPolicy)
    (op : Nat → Except PyExc α) (eN : PyExc)
    (hN : 1 ≤ p.attempts)
    (hfail : ∀ n, 1 ≤ n → n ≤ p.attempts →
      ∃ e, op n = .error e ∧ shouldRetry e p = true)
    (hlast : op p.attempts = .error eN) :
    retrySync p op = ⟨.error eN, p.attempts, p.attempts - 1⟩ ∧
    retryAsync p op = ⟨.error eN, p.attempts, p.attempts - 1⟩ := by
  have h := retryLoop_all_fail p op eN p.attempts 1 0 0 (by omega) hN hfail hlast
  constructor
  · unfold retrySync
    rw [h]
    simp
  · unfold retryAsync
    rw [h]
    simp

/-- Witness for C2 with the default policy (`attempts = 3`) and an operation
that always raises a `RetryableAgentError`: three invocations, two sleeps,
the third error re-raised. -/
theorem retry_retryable_exhausts_attempts_witness :
    retrySync {} (fun _ => (.error ⟨.retryableAgentError, "boom", true⟩ : Except PyExc Nat)) =
      ⟨.error ⟨.retryableAgentError, "boom", true⟩, 3, 2⟩ ∧
    retryAsync {} (fun _ => (.error ⟨.retryableAgentError, "boom", true⟩ : Except PyExc Nat)) =
      ⟨.error ⟨.retryableAgentError, "boom", true⟩, 3, 2⟩ := by
  exact retry_retryable_exhausts_attempts {}
    (fun _ => .error ⟨.retryableAgentError, "boom", true⟩)
    ⟨.retryableAgentError, "boom", true⟩
    (by decide)
    (fun n _ _ => ⟨⟨.retryableAgentError, "boom", true⟩, rfl, by decide⟩)
    rfl

/-- An error in the deny-list, or outside a configured non-empty allow-list,
is classified non-retryable; in particular the deny-list wins when the error
matches both lists. -/
lemma shouldRetry_false_of_nonretryable (e : PyExc) (p : RetryPolicy)
    (h : e.isinstanceAny p.nonRetryableExceptions = true ∨
         (p.retryExceptions ≠ [] ∧ e.isinstanceAny p.retryExceptions = false)) :
    shouldRetry e p = false := by
  rcases h with hdeny | ⟨hne, hallow⟩
  · simp [shouldRetry, hdeny]
  · by_cases hdeny : e.isinstanceAny p.nonRetryableExceptions = true
    · simp [shouldRetry, hdeny]
    · have : p.retryExceptions.isEmpty = false := by
        simpa [List.isEmpty_iff] using hne
      simp [shouldRetry, hdeny, this, hallow]

/-- C3: an operation whose first invocation raises an error that is in the
policy's deny-list, or (with a non-empty allow-list configured) not in the
allow-list — the deny-list winning when the error is in both — is invoked
exactly once regardless of `attempts ≥ 1`, with no backoff sleep, and that
error is re-raised immediately, identically by `retry_sync` and
`retry_async`. -/
theorem retry_nonretryable_single_attempt {α : Type} (p : RetryPolicy)
    (op : Nat → Except PyExc α) (e : PyExc)
    (hN : 1 ≤ p.attempts)
    (hop : op 1 = .error e)
    (hclass : e.isinstanceAny p.nonRetryableExceptions = true ∨
      (p.retryExceptions ≠ [] ∧ e.isinstanceAny p.retryExceptions = false)) :
    retrySync p op = ⟨.error e, 1, 0⟩ ∧ retryAsync p op = ⟨.error e, 1, 0⟩ := by
  have hsr := shouldRetry_false_of_nonretryable e p hclass
  obtain ⟨f, hf⟩ : ∃ f, p.attempts = f + 1 := ⟨p.attempts - 1, by omega⟩
  constructor
  · unfold retrySync
    rw [hf]
    simp [retryLoop, hop, hsr]
  · unfold retryAsync
    rw [hf]
    simp [retryLoop, hop, hsr]

/-- Witness for C3: a policy with `attempts = 4` whose allow-list and
deny-list both contain `ValidationError`; the operation raising it runs once
with no sleep — the deny-list wins. -/
theorem retry_nonretryable_single_attempt_witness :
    retrySync
      { attempts := 4, retryExceptions := [.validationError],
        nonRetryableExceptions := [.validationError] }
      (fun _ => (.error ⟨.validationError, "bad", false⟩ : Except PyExc Nat)) =
      ⟨.error ⟨.validationError, "bad", false⟩, 1, 0⟩ ∧
    retryAsync
      { attempts := 4, retryExceptions := [.validationError],
        nonRetryableExceptions := [.validationError] }
      (fun _ => (.error ⟨.validationError, "bad", false⟩ : Except PyExc Nat)) =
      ⟨.error ⟨.validationError, "bad", false⟩, 1, 0⟩ := by
  exact retry_nonretryable_single_attempt
    { attempts := 4, retryExceptions := [.validationError],
      nonRetryableExceptions := [.validationError] }
    (fun _ => .error ⟨.validationError, "bad", false⟩)
    ⟨.validationError, "bad", false⟩
    (by decide) rfl (Or.inl (by decide))

/-- C7: `execute` returns the retried business logic's result untouched on
success; when the retried logic raises it never returns normally, and it
splits on the error: a `HumanInputRequiredError` is re-raised as the very
same error after best-effort HITL enqueueing (a missing queue is tolerated
and left missing; a present queue gains the constructed request under the
input's `request_id`), while any other exception is re-raised coerced through
`coerce_agent_error` — an exception outside the `AgentError` taxonomy
becoming a generic non-retryable `AgentError` with the same message. -/
theorem agent_execute_error_paths {α : Type} (name : String) (inp : AgentInputM)
    (queue : Option HITLStore) (p : RetryPolicy) (op : Nat → Except PyExc α)
    (now : ℚ) :
    (∀ a, (retryAsync p op).outcome = .ok a →
      executeAgent name inp queue p op now = (queue, .ok a)) ∧
    (∀ e, (retryAsync p op).outcome = .error e →
      (∀ a, (executeAgent name inp queue p op now).2 ≠ .ok a) ∧
      (e.cls.isSubclassOf .humanInputRequiredError = true →
        (executeAgent name inp queue p op now).2 = .error e ∧
        (queue = none → (executeAgent name inp queue p op now).1 = none) ∧
        (∀ q, queue = some q →
          (executeAgent name inp queue p op now).1 =
            some (q.submit (hitlRequestOf name inp e now)) ∧
          q.submit (hitlRequestOf name inp e now) inp.requestId =
            some (hitlRequestOf name inp e now))) ∧
      (e.cls.isSubclassOf .humanInputRequiredError = false →
        executeAgent name inp queue p op now =
          (queue, .error (coerceAgentError e)) ∧
        (e.cls.isSubclassOf .agentError = false →
          coerceAgentError e = ⟨.agentError, e.message, false⟩))) := by
  constructor
  · intro a ha
    simp [executeAgent, ha]
  · intro e he
    refine ⟨?_, ?_, ?_⟩
    · intro a
      by_cases hc : e.cls.isSubclassOf .humanInputRequiredError = true
      · simp [executeAgent, he, hc]
      · simp [executeAgent, he, hc]
    · intro hc
      refine ⟨by simp [executeAgent, he, hc], ?_, ?_⟩
      · intro hq
        simp [executeAgent, he, hc, hq, enqueueHitl]
      · intro q hq
        refine ⟨by simp [executeAgent, he, hc, hq, enqueueHitl], ?_⟩
        simp [HITLStore.submit, hitlRequestOf]
    · intro hc
      refine ⟨by simp [executeAgent, he, hc], ?_⟩
      intro hag
      simp [coerceAgentError, hag]

/-- Witness for C7: an operation that always raises
`HumanInputRequiredError` (non-retryable, so one attempt) run once with a
queue present, once without: the error is re-raised unchanged in both cases,
the present queue gains the request, the missing queue stays missing; and a
bare `KeyError` is coerced to a generic non-retryable `AgentError`. -/
theorem agent_execute_error_paths_witness :
    (executeAgent "doc_agent" ⟨"req-1", "in", "md"⟩ (some HITLStore.empty) {}
        (fun _ => (.error ⟨.humanInputRequiredError, "need approval", false⟩ : Except PyExc Nat))
        3).2 = .error ⟨.humanInputRequiredError, "need approval", false⟩ ∧
    (executeAgent "doc_agent" ⟨"req-1", "in", "md"⟩ (some HITLStore.empty) {}
        (fun _ => (.error ⟨.humanInputRequiredError, "need approval", false⟩ : Except PyExc Nat))
        3).1 =
      some (HITLStore.empty.submit
        (hitlRequestOf "doc_agent" ⟨"req-1", "in", "md"⟩
          ⟨.humanInputRequiredError, "need approval", false⟩ 3)) ∧
    (executeAgent "doc_agent" ⟨"req-1", "in", "md"⟩ none {}
        (fun _ => (.error ⟨.humanInputRequiredError, "need approval", false⟩ : Except PyExc Nat))
        3).1 = none ∧
    coerceAgentError ⟨.keyError, "missing", false⟩ =
      ⟨.agentError, "missing", false⟩ := by
  have hq := agent_execute_error_paths "doc_agent" ⟨"req-1", "in", "md"⟩
    (some HITLStore.empty) {}
    (fun _ => (.error ⟨.humanInputRequiredError, "need approval", false⟩ : Except PyExc Nat)) 3
  have hn := agent_execute_error_paths "doc_agent" ⟨"req-1", "in", "md"⟩
    (none : Option HITLStore) {}
    (fun _ => (.error ⟨.humanInputRequiredError, "need approval", false⟩ : Except PyExc Nat)) 3
  have hqe := hq.2 ⟨.humanInputRequiredError, "need approval", false⟩ rfl
  have hne := hn.2 ⟨.humanInputRequiredError, "need approval", false⟩ rfl
  have hco := (agent_execute_error_paths "x" ⟨"r", "i", "m"⟩
    (none : Option HITLStore) { attempts := 1 }
    (fun _ => (.error ⟨.keyError, "missing", false⟩ : Except PyExc Nat)) 0).2
    ⟨.keyError, "missing", false⟩ rfl
  exact ⟨(hqe.2.1 (by decide)).1,
    ((hqe.2.1 (by decide)).2.2 HITLStore.empty rfl).1,
    (hne.2.1 (by decide)).2.1 rfl,
    ((hco.2.2 (by decide)).2 (by decide))⟩

/-- A sequential run over a non-empty step list records at least the first
step's entry. -/
lemma runSequential_ne_nil (registered : String → Bool)
    (childExec : String → String → Nat → Except String String)
    (s : WorkStep) (rest : List WorkStep) (i : Nat) :
    runSequential registered childExec (s :: rest) i ≠ [] := by
  unfold runSequential
  by_cases h : (invokeAgent registered childExec s.agent s.params i).hasError
  · simp [h]
  · simp [h]

/-- Structure of a sequential run started at position `i0`: every recorded
entry is the invocation of the step at the same index, only the final entry
may carry a truthy error marker, and a run shorter than the step list ends in
an entry whose error marker is truthy. -/
lemma runSequential_spec (registered : String → Bool)
    (childExec : String → String → Nat → Except String String) :
    ∀ (steps : List WorkStep) (i0 : Nat),
      (∀ j e, (runSequential registered childExec steps i0)[j]? = some e →
        j + 1 < (runSequential registered childExec steps i0).length →
        e.hasError = false) ∧
      (∀ j e, (runSequential registered childExec steps i0)[j]? = some e →
        ∃ s, steps[j]? = some s ∧
          e = invokeAgent registered childExec s.agent s.params (i0 + j)) ∧
      ((runSequential registered childExec steps i0).length < steps.length →
        ∃ e, (runSequential registered childExec steps i0)[
            (runSequential registered childExec steps i0).length - 1]? = some e ∧
          e.hasError = true) := by
  intro steps
  induction steps with
  | nil =>
      intro i0
      refine ⟨?_, ?_, ?_⟩ <;> simp [runSequential]
  | cons s rest ih =>
      intro i0
      by_cases herr : (invokeAgent registered childExec s.agent s.params i0).hasError
      · have hrs : runSequential registered childExec (s :: rest) i0 =
            [invokeAgent registered childExec s.agent s.params i0] := by
          show (if (invokeAgent registered childExec s.agent s.params i0).hasError then
              [invokeAgent registered childExec s.agent s.params i0]
            else invokeAgent registered childExec s.agent s.params i0 ::
              runSequential registered childExec rest (i0 + 1)) =
            [invokeAgent registered childExec s.agent s.params i0]
          simp [herr]
        refine ⟨?_, ?_, ?_⟩
        · intro j e hj hlen
          rw [hrs] at hlen
          simp at hlen
        · intro j e hj
          rw [hrs] at hj
          match j with
          | 0 =>
              simp at hj
              exact ⟨s, by simp, by simp [hj.symm]⟩
          | k + 1 => simp at hj
        · intro _
          rw [hrs]
          exact ⟨invokeAgent registered childExec s.agent s.params i0,
            by simp, herr⟩
      · have hrs : runSequential registered childExec (s :: rest) i0 =
            invokeAgent registered childExec s.agent s.params i0 ::
              runSequential registered childExec rest (i0 + 1) := by
          show (if (invokeAgent registered childExec s.agent s.params i0).hasError then
              [invokeAgent registered childExec s.agent s.params i0]
            else invokeAgent registered childExec s.agent s.params i0 ::
              runSequential registered childExec rest (i0 + 1)) =
            invokeAgent registered childExec s.agent s.params i0 ::
              runSequential registered childExec rest (i0 + 1)
          simp [herr]
        obtain ⟨iha, ihb, ihc⟩ := ih (i0 + 1)
        refine ⟨?_, ?_, ?_⟩
        · intro j e hj hlen
          rw [hrs] at hj hlen
          match j with
          | 0 =>
              simp at hj
              rw [hj] at herr
              simpa using herr
          | k + 1 =>
              simp only [List.getElem?_cons_succ] at hj
              simp only [List.length_cons] at hlen
              exact iha k e hj (by omega)
        · intro j e hj
          rw [hrs] at hj
          match j with
          | 0 =>
              simp at hj
              exact ⟨s, by simp, by simp [hj.symm]⟩
          | k + 1 =>
              simp only [List.getElem?_cons_succ] at hj
              obtain ⟨s2, hs2, he2⟩ := ihb k e hj
              refine ⟨s2, by simpa using hs2, ?_⟩
              rw [he2]
              congr 1
              omega
        · intro hlen
          rw [hrs] at hlen ⊢
          simp only [List.length_cons] at hlen
          have hlt : (runSequential registered childExec rest (i0 + 1)).length <
              rest.length := by omega
          obtain ⟨e, he, herr2⟩ := ihc hlt
          have hrestne : rest ≠ [] := by
            intro h
            rw [h] at hlt
            simp at hlt
          obtain ⟨r1, rrest, hr⟩ := List.exists_cons_of_ne_nil hrestne
          have hne : runSequential registered childExec rest (i0 + 1) ≠ [] := by
            rw [hr]
            exact runSequential_ne_nil registered childExec r1 rrest (i0 + 1)
          have hpos : 1 ≤ (runSequential registered childExec rest (i0 + 1)).length :=
            List.length_pos.mpr hne
          refine ⟨e, ?_, herr2⟩
          have hidx : (invokeAgent registered childExec s.agent s.params i0 ::
              runSequential registered childExec rest (i0 + 1)).length - 1 =
              ((runSequential registered childExec rest (i0 + 1)).length - 1) + 1 := by
            simp only [List.length_cons]
            omega
          rw [hidx, List.getElem?_cons_succ]
          exact he

/-- C5: in a sequential orchestrator run, every returned entry is the in-order
invocation of the step at the same position, every entry before the last has
no truthy error marker, a result list shorter than the step list (later steps
never invoked) ends with the first entry whose error marker is truthy, and an
unregistered label never raises — it yields a structured `{agent, error}`
entry (as does a child failure, by construction of `invokeAgent`). -/
theorem orchestrator_sequential_fail_fast (registered : String → Bool)
    (childExec : String → String → Nat → Except String String)
    (steps : List WorkStep) :
    (∀ j e, (runSequential registered childExec steps 0)[j]? = some e →
      j + 1 < (runSequential registered childExec steps 0).length →
      e.hasError = false) ∧
    (∀ j e, (runSequential registered childExec steps 0)[j]? = some e →
      ∃ s, steps[j]? = some s ∧
        e = invokeAgent registered childExec s.agent s.params j) ∧
    ((runSequential registered childExec steps 0).length < steps.length →
      ∃ e, (runSequential registered childExec steps 0)[
          (runSequential registered childExec steps 0).length - 1]? = some e ∧
        e.hasError = true) ∧
    (∀ label params i, registered label = false →
      invokeAgent registered childExec label params i =
        .err label ("Agent " ++ label ++ " is not registered")) := by
  obtain ⟨ha, hb, hc⟩ := runSequential_spec registered childExec steps 0
  refine ⟨ha, ?_, hc, ?_⟩
  · intro j e hj
    obtain ⟨s, hs, he⟩ := hb j e hj
    exact ⟨s, hs, by simpa using he⟩
  · intro label params i hreg
    simp [invokeAgent, hreg]

/-- Witness for C5 over steps `[A, B, C]` where `B`'s child raises: the run
returns the two entries `[ok A, err B]` — entry 0 has no error marker and
entry 1 is the invocation of step `B`; and an unregistered label `X` yields
the structured not-registered entry. -/
theorem orchestrator_sequential_fail_fast_witness :
    StepEntry.hasError (.ok "A" "out-A") = false ∧
    (∃ s, ([(⟨"A", "pa"⟩ : WorkStep), ⟨"B", "pb"⟩, ⟨"C", "pc"⟩][1]? = some s ∧
      StepEntry.err "B" "boom" =
        invokeAgent (fun _ => true)
          (fun l _ _ => if l = "B" then .error "boom" else .ok ("out-" ++ l))
          s.agent s.params 1)) ∧
    invokeAgent (fun _ => false)
      (fun l _ _ => if l = "B" then .error "boom" else .ok ("out-" ++ l))
      "X" "px" 0 = .err "X" "Agent X is not registered" := by
  have h := orchestrator_sequential_fail_fast (fun _ => true)
    (fun l _ _ => if l = "B" then .error "boom" else .ok ("out-" ++ l))
    [⟨"A", "pa"⟩, ⟨"B", "pb"⟩, ⟨"C", "pc"⟩]
  have h2 := orchestrator_sequential_fail_fast (fun _ => false)
    (fun l _ _ => if l = "B" then .error "boom" else .ok ("out-" ++ l))
    ([] : List WorkStep)
  exact ⟨h.1 0 (.ok "A" "out-A") (by decide) (by decide),
    h.2.1 1 (.err "B" "boom") (by decide),
    h2.2.2.2 "X" "px" 0 rfl⟩

/-- Every parallel entry is the in-order invocation of the step at the same
index, offset by the starting position. -/
lemma runParallelFrom_spec (registered : String → Bool)
    (childExec : String → String → Nat → Except String String) :
    ∀ (steps : List WorkStep) (i0 : Nat),
      (runParallelFrom registered childExec steps i0).length = steps.length ∧
      ∀ j, (runParallelFrom registered childExec steps i0)[j]? =
        (steps[j]?).map
          (fun s => invokeAgent registered childExec s.agent s.params (i0 + j)) := by
  intro steps
  induction steps with
  | nil =>
      intro i0
      refine ⟨rfl, ?_⟩
      intro j
      simp [runParallelFrom]
  | cons s rest ih =>
      intro i0
      obtain ⟨ihlen, ihget⟩ := ih (i0 + 1)
      refine ⟨by simp [runParallelFrom, ihlen], ?_⟩
      intro j
      match j with
      | 0 => simp [runParallelFrom]
      | k + 1 =>
          simp only [runParallelFrom, List.getElem?_cons_succ]
          rw [ihget k]
          have harith : i0 + 1 + k = i0 + (k + 1) := by omega
          rw [harith]

/-- C6: a parallel orchestrator run returns exactly one entry per step,
positioned in input order — the `j`-th entry is the invocation of the `j`-th
step at position `j` — and, the run being a total function into
success-or-error entries, every step is awaited to an entry with no
fail-fast short-circuit. -/
theorem orchestrator_parallel_in_order (registered : String → Bool)
    (childExec : String → String → Nat → Except String String)
    (steps : List WorkStep) :
    (runParallel registered childExec steps).length = steps.length ∧
    ∀ j, (runParallel registered childExec steps)[j]? =
      (steps[j]?).map
        (fun s => invokeAgent registered childExec s.agent s.params j) := by
  obtain ⟨hlen, hget⟩ := runParallelFrom_spec registered childExec steps 0
  refine ⟨hlen, ?_⟩
  intro j
  rw [runParallel, hget j]
  simp

/-- C4 (amended): in a Switch-6 graph run (fresh default breakers, non-empty
business data) whose `wound` stage fails, every downstream stage self-skips —
its engine work is never attempted and its results stay absent — while the
run's `framework_completion_score` is `None`: no graph node ever computes the
mean-of-confidence score (that computation lives only in the engine's
`execute_full_framework`, which always runs all six stages). -/
theorem switch6_invalid_stage_skips_downstream (eng : Stage → Except String String)
    (now : ℚ) (userType r e : String)
    (hseg : eng .segment = .ok r) (hwound : eng .wound = .error e) :
    (runSwitch6Workflow eng now true userType defaultBreakers).attempted .segment = true ∧
    (runSwitch6Workflow eng now true userType defaultBreakers).attempted .wound = true ∧
    (runSwitch6Workflow eng now true userType defaultBreakers).attempted .reframe = false ∧
    (runSwitch6Workflow eng now true userType defaultBreakers).attempted .offer = false ∧
    (runSwitch6Workflow eng now true userType defaultBreakers).attempted .action = false ∧
    (runSwitch6Workflow eng now true userType defaultBreakers).attempted .cash = false ∧
    (runSwitch6Workflow eng now true userType defaultBreakers).stages .segment = some r ∧
    (runSwitch6Workflow eng now true userType defaultBreakers).stages .reframe = none ∧
    (runSwitch6Workflow eng now true userType defaultBreakers).stages .offer = none ∧
    (runSwitch6Workflow eng now true userType defaultBreakers).stages .action = none ∧
    (runSwitch6Workflow eng now true userType defaultBreakers).stages .cash = none ∧
    (runSwitch6Workflow eng now true userType defaultBreakers).frameworkCompletionScore
      = none := by
  simp [runSwitch6Workflow, Stage.all, runStages, stageNode, stageFailure,
    canSkipStage, S6CircuitBreaker.canExecute, S6CircuitBreaker.recordSuccess,
    S6CircuitBreaker.recordFailure, defaultBreakers, S6State.setResults,
    S6State.setValid, S6State.setRetryCount, S6State.addError,
    S6State.results, s6MaxRetries, hseg, hwound]

/-- Witness for C4 (amended) at a concrete engine whose `wound` call raises. -/
theorem switch6_invalid_stage_skips_downstream_witness :
    (runSwitch6Workflow
        (fun st => if st = Stage.wound then .error "boom" else .ok "res")
        0 true "business_owner" defaultBreakers).attempted .reframe = false ∧
    (runSwitch6Workflow
        (fun st => if st = Stage.wound then .error "boom" else .ok "res")
        0 true "business_owner" defaultBreakers).stages .cash = none ∧
    (runSwitch6Workflow
        (fun st => if st = Stage.wound then .error "boom" else .ok "res")
        0 true "business_owner" defaultBreakers).frameworkCompletionScore = none := by
  have h := switch6_invalid_stage_skips_downstream
    (fun st => if st = Stage.wound then .error "boom" else .ok "res")
    0 "business_owner" "res" "boom" rfl rfl
  exact ⟨h.2.2.1, h.2.2.2.2.2.2.2.2.2.2.1, h.2.2.2.2.2.2.2.2.2.2.2⟩

/-- Counterexample for C4 as stated: in the concrete graph run below the
`wound` stage ends invalid and the downstream stages are indeed never
attempted, but the run's overall completion score is `None` — no number at
all — rather than the claimed mean of the stages' self-reported confidences
(which would be some rational with skipped/errored stages contributing 0).
The mean-of-confidence score is computed only by
`Switch6FrameworkEngine.execute_full_framework`, not by the graph run. -/
theorem switch6_score_none_counterexample :
    (runStages (fun st => if st = Stage.wound then .error "boom" else .ok "res")
        0 Stage.all
        ⟨{ businessData := true, userType := "business_owner" },
         defaultBreakers, fun _ => false⟩).state.woundValid = false ∧
    (runStages (fun st => if st = Stage.wound then .error "boom" else .ok "res")
        0 Stage.all
        ⟨{ businessData := true, userType := "business_owner" },
         defaultBreakers, fun _ => false⟩).attempted .reframe = false ∧
    (runSwitch6Workflow
        (fun st => if st = Stage.wound then .error "boom" else .ok "res")
        0 true "business_owner" defaultBreakers).frameworkCompletionScore = none := by
  refine ⟨?_, ?_, ?_⟩ <;> decide

end Intake
